import Mathlib

/-!
# Verification of the ssh_fb ban-decision engine

Shallow embedding of `internal/monitor/monitor.go` from the `ssh_fb`
repository.  Go maps `map[string]int` / `map[string]time.Time` are modelled
as association lists with string keys (Go map keys are unique; the assoc
lists preserve that as a `Nodup` invariant where needed).  `time.Time` and
`time.Duration` are modelled as natural numbers of nanoseconds;
`time.Now().Before(t)` is `now < t` and `time.Now().After(t)` is `t < now`.
Fallible external calls (firewall, file writes, notifications) are modelled
by passing the environment's answer as an explicit oracle argument, and the
observable actions of a handler are returned as a list of `Effect`s in
program order.
-/

namespace SshFb

/-- One nanosecond-count per hour, mirroring Go's `time.Hour`. -/
def hourNs : Nat := 3600000000000

/-- The configuration fields the monitor consults
(`config.SSHProtection.MaxFailedAttempts` and
`config.SSHProtection.BanDurationHours`). -/
structure Config where
  maxFailedAttempts : Nat
  banDurationHours : Nat
  deriving Repr, DecidableEq

/-- Go's `time.Duration(cfg.BanDurationHours) * time.Hour`. -/
def banDuration (cfg : Config) : Nat := cfg.banDurationHours * hourNs

/-- Association-list lookup, modelling Go's `m[k]` / `v, ok := m[k]`. -/
def lookupA (m : List (String × Nat)) (k : String) : Option Nat :=
  match m with
  | [] => none
  | p :: rest => if p.1 = k then some p.2 else lookupA rest k

/-- Association-list key removal, modelling Go's `delete(m, k)`. -/
def eraseA (m : List (String × Nat)) (k : String) : List (String × Nat) :=
  match m with
  | [] => []
  | p :: rest => if p.1 = k then eraseA rest k else p :: eraseA rest k

/-- Association-list insert/overwrite, modelling Go's `m[k] = v`. -/
def insertA (m : List (String × Nat)) (k : String) (v : Nat) : List (String × Nat) :=
  match m with
  | [] => [(k, v)]
  | p :: rest => if p.1 = k then (k, v) :: rest else p :: insertA rest k v

/-- The keys of an association list (`for k := range m`). -/
def keysOf (m : List (String × Nat)) : List String := m.map Prod.fst

/-- The mutable state of the `Monitor` struct: `failedAttempts` maps an
address to its failure count, `bannedIPs` maps a banned address to the
moment its ban expires. -/
structure MonitorState where
  failedAttempts : List (String × Nat)
  bannedIPs : List (String × Nat)
  deriving Repr, DecidableEq

/-- The empty state built by `NewMonitor`. -/
def initialState : MonitorState := ⟨[], []⟩

/-- The spec's `listBanned`: the addresses currently holding a Ban Record. -/
def listBanned (s : MonitorState) : List String := keysOf s.bannedIPs

/-- Function `isIPBanned` from monitor.go: reports whether `ip` is banned at time
`now`, and (lazy expiry) deletes both the Ban Record and the Attempt
Record when the record exists but `now` is not before its expiry. -/
def isIPBanned (now : Nat) (s : MonitorState) (ip : String) : Bool × MonitorState :=
  match lookupA s.bannedIPs ip with
  | some banTime =>
      if now < banTime then (true, s)
      else (false, { failedAttempts := eraseA s.failedAttempts ip,
                     bannedIPs := eraseA s.bannedIPs ip })
  | none => (false, s)

theorem lookupA_eraseA (m : List (String × Nat)) (k k' : String) :
    lookupA (eraseA m k) k' = if k' = k then none else lookupA m k' := by
  induction m with
  | nil => simp [eraseA, lookupA]
  | cons p rest ih =>
      simp only [eraseA]
      by_cases h1 : p.1 = k
      · rw [if_pos h1, ih]
        by_cases h2 : k' = k
        · simp [h2]
        · have hp : ¬ p.1 = k' := by rw [h1]; exact fun he => h2 he.symm
          simp [h2, lookupA, hp]
      · rw [if_neg h1]
        by_cases h2 : p.1 = k'
        · have h3 : ¬ k' = k := fun he => h1 (by rw [h2, he])
          simp [lookupA, h2, h3]
        · simp [lookupA, h2, ih]

theorem lookupA_insertA (m : List (String × Nat)) (k : String) (v : Nat) (k' : String) :
    lookupA (insertA m k v) k' = if k' = k then some v else lookupA m k' := by
  induction m with
  | nil =>
      by_cases h : k' = k
      · simp [insertA, lookupA, h]
      · have : ¬ k = k' := fun he => h he.symm
        simp [insertA, lookupA, h, this]
  | cons p rest ih =>
      simp only [insertA]
      by_cases h1 : p.1 = k
      · rw [if_pos h1]
        by_cases h2 : k' = k
        · simp [lookupA, h2]
        · have hkk : ¬ k = k' := fun he => h2 he.symm
          have hp : ¬ p.1 = k' := by rw [h1]; exact hkk
          simp [lookupA, h2, hkk, hp]
      · rw [if_neg h1]
        by_cases h2 : p.1 = k'
        · have h3 : ¬ k' = k := fun he => h1 (by rw [h2, he])
          simp [lookupA, h2, h3]
        · simp [lookupA, h2, ih]

theorem keysOf_eraseA (m : List (String × Nat)) (k : String) :
    keysOf (eraseA m k) = (keysOf m).filter (fun x => decide (x ≠ k)) := by
  induction m with
  | nil => rfl
  | cons p rest ih =>
      simp only [eraseA]
      by_cases h : p.1 = k
      · rw [if_pos h, ih]
        simp [keysOf, List.filter_cons, h]
      · rw [if_neg h]
        have h1 : keysOf (p :: eraseA rest k) = p.1 :: keysOf (eraseA rest k) := rfl
        rw [h1, ih]
        simp [keysOf, List.filter_cons, h]

theorem mem_keysOf_iff_lookupA (m : List (String × Nat)) (k : String) :
    k ∈ keysOf m ↔ (lookupA m k).isSome := by
  induction m with
  | nil => simp [keysOf, lookupA]
  | cons p rest ih =>
      have hcons : keysOf (p :: rest) = p.1 :: keysOf rest := rfl
      rw [hcons]
      by_cases h : p.1 = k
      · simp [lookupA, h]
      · have hk : ¬ k = p.1 := fun he => h he.symm
        rw [List.mem_cons]
        simp only [lookupA, if_neg h]
        constructor
        · intro hm
          rcases hm with he | hm'
          · exact absurd he hk
          · exact ih.mp hm'
        · intro hs
          exact Or.inr (ih.mpr hs)

/-- With unique keys, a member pair is exactly what lookup finds. -/
theorem lookupA_of_mem_nodup (m : List (String × Nat)) (k : String) (v : Nat)
    (hnd : (keysOf m).Nodup) (hmem : (k, v) ∈ m) : lookupA m k = some v := by
  induction m with
  | nil => simp at hmem
  | cons p rest ih =>
      rw [keysOf, List.map_cons, List.nodup_cons] at hnd
      rcases List.mem_cons.mp hmem with h | h
      · rw [← h]
        simp [lookupA]
      · have hk : k ∈ rest.map Prod.fst := List.mem_map.mpr ⟨(k, v), h, rfl⟩
        have hp1 : ¬ p.1 = k := fun he => hnd.1 (he.symm ▸ hk)
        simp only [lookupA, if_neg hp1]
        exact ih hnd.2 h

/-- Observable actions of the monitor, in program order: firewall calls,
the blacklist write, structured log records (`logWithError` stands for a
`logger.WithError(err)...Error(msg)` record carrying the address), the
geolocation lookup, and the three notification sends. -/
inductive Effect where
  | fwBan (ip : String)
  | fwUnban (ip : String)
  | persist (written : List String) (err : Option String)
  | logWarn (msg : String) (ip : String)
  | logInfo (msg : String) (ip : String)
  | logWithError (msg : String) (ip : String)
  | ipLookup (ip : String)
  | notifySuccess (ip : String)
  | notifyFailed (ip : String) (attempts maxAttempts : Nat)
  | notifyBanned (ip : String) (duration expireTime : Nat)
  deriving Repr, DecidableEq

/-- The write loop of `saveBlacklist`: writes one address per line in
order, returning at the first failed `WriteString`.  `writeErr ip` is the
environment's answer to writing the line for `ip`.  Returns the lines that
reached the file and the error returned, if any. -/
def saveLoop (ips : List String) (writeErr : String → Option String) :
    List String × Option String :=
  match ips with
  | [] => ([], none)
  | ip :: rest =>
      match writeErr ip with
      | some e => ([], some e)
      | none =>
          let r := saveLoop rest writeErr
          (ip :: r.1, r.2)

/-- Function `saveBlacklist` from monitor.go: open with `O_TRUNC` (an open failure
is returned before anything is written), then write every banned address
on its own line, returning at the first write failure. -/
def saveBlacklist (banned : List (String × Nat)) (openErr : Option String)
    (writeErr : String → Option String) : List String × Option String :=
  match openErr with
  | some e => ([], some e)
  | none => saveLoop (keysOf banned) writeErr

/-- The blacklist file's contents after a `saveBlacklist` call whose
previous contents were `prev`: an open failure leaves the file untouched,
otherwise `O_TRUNC` destroys `prev` and the file holds exactly the lines
the write loop managed to write. -/
def fileAfterSave (prev : List String) (banned : List (String × Nat))
    (openErr : Option String) (writeErr : String → Option String) : List String :=
  match openErr with
  | some _ => prev
  | none => (saveLoop (keysOf banned) writeErr).1

/-- Function `loadBlacklist` from monitor.go: for every non-empty line, install a
Ban Record expiring at `loadNow + banDuration cfg` (the saved expiry is
not restored; `time.Now()` per line is modelled as the single instant
`loadNow`). -/
def loadBlacklist (init : List (String × Nat)) (lines : List String)
    (loadNow : Nat) (cfg : Config) : List (String × Nat) :=
  match lines with
  | [] => init
  | l :: rest =>
      if l = "" then loadBlacklist init rest loadNow cfg
      else loadBlacklist (insertA init l (loadNow + banDuration cfg)) rest loadNow cfg

/-- Function `banIP` from monitor.go: record the ban in memory, then call the
firewall; on firewall failure log the error and return (no persistence,
no notification).  Otherwise persist the blacklist (its error is
discarded), log, look up IP info and send the ban notification.  The send
result `_notifyErr` is discarded by the source, hence unused. -/
def banIP (cfg : Config) (now : Nat) (ip : String) (s : MonitorState)
    (fwErr : Option String) (saveOpenErr : Option String)
    (writeErr : String → Option String) (_notifyErr : Option String) :
    MonitorState × List Effect :=
  let banTime := now + banDuration cfg
  let s1 : MonitorState := { s with bannedIPs := insertA s.bannedIPs ip banTime }
  match fwErr with
  | some _ => (s1, [.fwBan ip, .logWithError "封禁IP失败" ip])
  | none =>
      let sv := saveBlacklist s1.bannedIPs saveOpenErr writeErr
      (s1, [.fwBan ip, .persist sv.1 sv.2,
            .logInfo "IP已被封禁" ip, .ipLookup ip,
            .notifyBanned ip (banDuration cfg) banTime])

/-- Function `handleFailedLogin` from monitor.go: if the address is banned, log a
warning and stop (the lazy-expiry side effect of `isIPBanned` is kept).
Otherwise increment its failure count, log, ban it when the count reaches
`MaxFailedAttempts`, and always send a failure notification whose result
`_failNotifyErr` is discarded. -/
def handleFailedLogin (cfg : Config) (now : Nat) (ip : String) (s : MonitorState)
    (fwErr : Option String) (saveOpenErr : Option String)
    (writeErr : String → Option String)
    (banNotifyErr _failNotifyErr : Option String) :
    MonitorState × List Effect :=
  let chk := isIPBanned now s ip
  if chk.1 then
    (chk.2, [.logWarn "尝试登录的IP已被封禁" ip])
  else
    let s0 := chk.2
    let cnt := (lookupA s0.failedAttempts ip).getD 0 + 1
    let s1 : MonitorState := { s0 with failedAttempts := insertA s0.failedAttempts ip cnt }
    let br : MonitorState × List Effect :=
      if cfg.maxFailedAttempts ≤ cnt then
        banIP cfg now ip s1 fwErr saveOpenErr writeErr banNotifyErr
      else (s1, [])
    (br.1, .logWarn "SSH登录失败" ip :: br.2 ++
      [.ipLookup ip,
       .notifyFailed ip ((lookupA br.1.failedAttempts ip).getD 0) cfg.maxFailedAttempts])

/-- Function `handleSuccessfulLogin` from monitor.go: log, look up IP info, send a
success notification whose result `_notifyErr` is discarded.  It touches
no monitor state. -/
def handleSuccessfulLogin (ip : String) (_notifyErr : Option String) : List Effect :=
  [.logInfo "SSH登录成功" ip, .ipLookup ip, .notifySuccess ip]

/-- The body of one tick of `cleanupBannedIPs`, iterating over a snapshot
`entries` of the banned map: for every entry whose expiry is strictly
before `now` (`time.Now().After(banTime)`), call the firewall unban (its
failure is logged and does not stop anything) and delete both records. -/
def cleanupLoop (entries : List (String × Nat)) (now : Nat) (s : MonitorState)
    (unbanErr : String → Option String) : MonitorState × List Effect :=
  match entries with
  | [] => (s, [])
  | (ip, banTime) :: rest =>
      if banTime < now then
        let effs :=
          match unbanErr ip with
          | some _ => [Effect.fwUnban ip, Effect.logWithError "解除IP封禁失败" ip]
          | none => [Effect.fwUnban ip, Effect.logInfo "IP已解除封禁" ip]
        let s' : MonitorState := { failedAttempts := eraseA s.failedAttempts ip,
                                   bannedIPs := eraseA s.bannedIPs ip }
        let r := cleanupLoop rest now s' unbanErr
        (r.1, effs ++ r.2)
      else
        cleanupLoop rest now s unbanErr

/-- One tick of the `cleanupBannedIPs` sweeper. -/
def cleanupTick (now : Nat) (s : MonitorState)
    (unbanErr : String → Option String) : MonitorState × List Effect :=
  cleanupLoop s.bannedIPs now s unbanErr

/-- Outcome of one `reader.ReadString` call in `monitorSSHLogs`. -/
inductive ReadOutcome where
  | ok (line : String)
  | endOfStream
  | readErr (e : String)
  deriving Repr, DecidableEq

/-- Observable steps of the log tailer. -/
inductive TailEvent where
  | process (line : String)
  | sleepMs (ms : Nat)
  deriving Repr, DecidableEq

/-- The fixed retry interval of the tailer, `100 * time.Millisecond`. -/
def sleepIntervalMs : Nat := 100

/-- One read against the file snapshot `f` at reader position `pos`;
`inj` injects a non-EOF read error when the environment produces one. -/
def readLine (f : List String) (pos : Nat) (inj : Option String) : ReadOutcome :=
  match inj with
  | some e => .readErr e
  | none => if h : pos < f.length then .ok (f.get ⟨pos, h⟩) else .endOfStream

/-- The read loop of `monitorSSHLogs` over a finite trace of environment
steps (each a file snapshot plus an optional injected read error): EOF
sleeps `sleepIntervalMs` and continues, a line is processed, any other
read error ends the loop and is returned. -/
def tailRun (pos : Nat) (trace : List (List String × Option String)) :
    List TailEvent × Option String :=
  match trace with
  | [] => ([], none)
  | (f, inj) :: rest =>
      match readLine f pos inj with
      | .readErr e => ([], some e)
      | .endOfStream =>
          let r := tailRun pos rest
          (.sleepMs sleepIntervalMs :: r.1, r.2)
      | .ok l =>
          let r := tailRun (pos + 1) rest
          (.process l :: r.1, r.2)

/-- Function `monitorSSHLogs` from monitor.go: an open failure is returned at
once; otherwise `file.Seek(0, 2)` starts the reader at the end of the
content `f0` present at open time, and the read loop runs. -/
def monitorSSHLogs (openErr : Option String) (f0 : List String)
    (trace : List (List String × Option String)) : List TailEvent × Option String :=
  match openErr with
  | some e => ([], some e)
  | none => tailRun f0.length trace

/-- The operations that touch monitor state, tagged with the time at
which they run. -/
inductive Op where
  | fail (now : Nat) (ip : String)
  | success (now : Nat) (ip : String)
  | check (now : Nat) (ip : String)
  | sweep (now : Nat)

/-- The instant at which an operation runs. -/
def opNow : Op → Nat
  | .fail n _ => n
  | .success n _ => n
  | .check n _ => n
  | .sweep n => n

/-- The state transition of one operation.  The external oracles are
fixed to the all-success answers; the state component of every handler is
independent of them (see the oracle-independence lemmas below). -/
def stepState (cfg : Config) (s : MonitorState) : Op → MonitorState
  | .fail now ip => (handleFailedLogin cfg now ip s none none (fun _ => none) none none).1
  | .success _ _ => s
  | .check now ip => (isIPBanned now s ip).2
  | .sweep now => (cleanupTick now s (fun _ => none)).1

/-- The failure count the store holds for `ip` (0 when absent, as for a
Go map). -/
def countF (s : MonitorState) (ip : String) : Nat :=
  (lookupA s.failedAttempts ip).getD 0

/-- Repeated failed-login events for `ip`, all at instant `now`, starting
from the fresh monitor state, with all external calls answering success. -/
def failStreak (cfg : Config) (now : Nat) (ip : String) : Nat → MonitorState
  | 0 => initialState
  | k + 1 =>
      (handleFailedLogin cfg now ip (failStreak cfg now ip k)
        none none (fun _ => none) none none).1

/-- Whether an effect is a blacklist write. -/
def isPersist : Effect → Bool
  | .persist _ _ => true
  | _ => false

/-- Whether an effect is a ban notification send. -/
def isNotifyBanned : Effect → Bool
  | .notifyBanned _ _ _ => true
  | _ => false

/-- Whether an effect is a failure notification send. -/
def isNotifyFailed : Effect → Bool
  | .notifyFailed _ _ _ => true
  | _ => false

/-- Whether an effect is a success notification send. -/
def isNotifySuccess : Effect → Bool
  | .notifySuccess _ => true
  | _ => false

/-- Whether an effect is a `logger.WithError(...)` record, the shape the
source uses to surface a collaborator failure. -/
def isLogWithError : Effect → Bool
  | .logWithError _ _ => true
  | _ => false

/-- The state `banIP` leaves behind: the Ban Record is installed before
the firewall is consulted, so it is identical on every oracle answer. -/
theorem banIP_fst (cfg : Config) (now : Nat) (ip : String) (s : MonitorState)
    (f o : Option String) (w : String → Option String) (n : Option String) :
    (banIP cfg now ip s f o w n).1
      = { s with bannedIPs := insertA s.bannedIPs ip (now + banDuration cfg) } := by
  cases f <;> rfl

theorem fwBan_mem_banIP (cfg : Config) (now : Nat) (ip : String) (s : MonitorState)
    (f o : Option String) (w : String → Option String) (n : Option String) :
    Effect.fwBan ip ∈ (banIP cfg now ip s f o w n).2 := by
  cases f <;> simp [banIP]

/-- An actively banned address is rejected unchanged by
`handleFailedLogin`, with only the "banned address attempted login"
observation. -/
theorem handleFailedLogin_of_banned (cfg : Config) (now : Nat) (ip : String)
    (s : MonitorState) (f o : Option String) (w : String → Option String)
    (b l : Option String) (t : Nat)
    (ht : lookupA s.bannedIPs ip = some t) (hnow : now < t) :
    handleFailedLogin cfg now ip s f o w b l
      = (s, [Effect.logWarn "尝试登录的IP已被封禁" ip]) := by
  have hchk : isIPBanned now s ip = (true, s) := by
    simp [isIPBanned, ht, hnow]
  unfold handleFailedLogin
  rw [hchk]
  simp

/-- The state left by `handleFailedLogin` when the address is not
actively banned: starting from the post-lazy-expiry state, the count is
incremented and, at the threshold, the Ban Record is installed. -/
theorem handleFailedLogin_fst_notBanned (cfg : Config) (now : Nat) (ip : String)
    (s : MonitorState) (f o : Option String) (w : String → Option String)
    (b l : Option String) (h : (isIPBanned now s ip).1 = false) :
    (handleFailedLogin cfg now ip s f o w b l).1
      = (let s0 := (isIPBanned now s ip).2
         let cnt := countF s0 ip + 1
         let s1 : MonitorState := { s0 with failedAttempts := insertA s0.failedAttempts ip cnt }
         if cfg.maxFailedAttempts ≤ cnt then
           { s1 with bannedIPs := insertA s1.bannedIPs ip (now + banDuration cfg) }
         else s1) := by
  unfold handleFailedLogin
  simp only [h, Bool.false_eq_true, if_false, countF]
  by_cases h2 :
      cfg.maxFailedAttempts ≤ (lookupA (isIPBanned now s ip).2.failedAttempts ip).getD 0 + 1
  · simp only [h2, if_true, banIP_fst]
  · simp only [h2, if_false]

/-- C2: while `now` is before a Ban Record's expiry, `isIPBanned` answers
true and changes nothing; once `now` is at or past the expiry, the next
call answers false and removes both the Ban Record and the Attempt
Record, so the address also leaves the banned set, without any sweep. -/
theorem isBanned_lazy_expiry (s : MonitorState) (ip : String) (t now : Nat)
    (ht : lookupA s.bannedIPs ip = some t) :
    (now < t → isIPBanned now s ip = (true, s))
    ∧ (t ≤ now →
        (isIPBanned now s ip).1 = false
        ∧ lookupA (isIPBanned now s ip).2.bannedIPs ip = none
        ∧ lookupA (isIPBanned now s ip).2.failedAttempts ip = none
        ∧ ip ∉ listBanned (isIPBanned now s ip).2) := by
  constructor
  · intro hnow
    simp [isIPBanned, ht, hnow]
  · intro hle
    have hnow : ¬ now < t := by omega
    have hres : isIPBanned now s ip
        = (false, { failedAttempts := eraseA s.failedAttempts ip,
                    bannedIPs := eraseA s.bannedIPs ip }) := by
      simp [isIPBanned, ht, hnow]
    refine ⟨by rw [hres], ?_, ?_, ?_⟩
    · rw [hres]
      simp [lookupA_eraseA]
    · rw [hres]
      simp [lookupA_eraseA]
    · rw [hres]
      intro hmem
      have := (mem_keysOf_iff_lookupA _ ip).mp hmem
      rw [lookupA_eraseA] at this
      simp at this

/-- Witness for C2 at a concrete banned address checked exactly at its
expiry instant. -/
theorem isBanned_lazy_expiry_w :
    (50 < 50 → isIPBanned 50 ⟨[("9.9.9.9", 4)], [("9.9.9.9", 50)]⟩ "9.9.9.9"
        = (true, ⟨[("9.9.9.9", 4)], [("9.9.9.9", 50)]⟩))
    ∧ (50 ≤ 50 →
        (isIPBanned 50 ⟨[("9.9.9.9", 4)], [("9.9.9.9", 50)]⟩ "9.9.9.9").1 = false
        ∧ lookupA (isIPBanned 50 ⟨[("9.9.9.9", 4)], [("9.9.9.9", 50)]⟩ "9.9.9.9").2.bannedIPs
            "9.9.9.9" = none
        ∧ lookupA (isIPBanned 50 ⟨[("9.9.9.9", 4)], [("9.9.9.9", 50)]⟩ "9.9.9.9").2.failedAttempts
            "9.9.9.9" = none
        ∧ "9.9.9.9" ∉ listBanned (isIPBanned 50 ⟨[("9.9.9.9", 4)], [("9.9.9.9", 50)]⟩ "9.9.9.9").2) :=
  isBanned_lazy_expiry ⟨[("9.9.9.9", 4)], [("9.9.9.9", 50)]⟩ "9.9.9.9" 50 50 (by decide)

/-- C4: whatever the firewall or persistence answers during `banIP`, the
in-memory Ban Record stays (it is installed first and never rolled back),
so any later failed attempt before the expiry finds `isIPBanned` true and
is rejected without touching the count. -/
theorem ban_not_rolled_back (cfg : Config) (now : Nat) (ip : String) (s : MonitorState)
    (fwErr saveOpenErr : Option String) (writeErr : String → Option String)
    (nErr : Option String) (now' : Nat)
    (_hfail : fwErr.isSome ∨ saveOpenErr.isSome ∨ ∃ k, (writeErr k).isSome)
    (hnow' : now' < now + banDuration cfg) :
    lookupA (banIP cfg now ip s fwErr saveOpenErr writeErr nErr).1.bannedIPs ip
      = some (now + banDuration cfg)
    ∧ (isIPBanned now' (banIP cfg now ip s fwErr saveOpenErr writeErr nErr).1 ip).1 = true
    ∧ ∀ f o w b l,
        handleFailedLogin cfg now' ip (banIP cfg now ip s fwErr saveOpenErr writeErr nErr).1 f o w b l
          = ((banIP cfg now ip s fwErr saveOpenErr writeErr nErr).1,
             [Effect.logWarn "尝试登录的IP已被封禁" ip]) := by
  have hlk : lookupA (banIP cfg now ip s fwErr saveOpenErr writeErr nErr).1.bannedIPs ip
      = some (now + banDuration cfg) := by
    rw [banIP_fst]
    simp [lookupA_insertA]
  refine ⟨hlk, ?_, ?_⟩
  · simp [isIPBanned, hlk, hnow']
  · intro f o w b l
    exact handleFailedLogin_of_banned cfg now' ip _ f o w b l _ hlk hnow'

/-- Witness for C4: both the firewall and the write fail, yet the record
stays and a failed attempt one instant before expiry is rejected. -/
theorem ban_not_rolled_back_w :
    lookupA (banIP ⟨3, 24⟩ 1000 "10.0.0.1" initialState (some "fw down") none
        (fun _ => some "disk full") none).1.bannedIPs "10.0.0.1"
      = some (1000 + banDuration ⟨3, 24⟩)
    ∧ (isIPBanned 86400000000999 (banIP ⟨3, 24⟩ 1000 "10.0.0.1" initialState (some "fw down") none
        (fun _ => some "disk full") none).1 "10.0.0.1").1 = true
    ∧ ∀ f o w b l,
        handleFailedLogin ⟨3, 24⟩ 86400000000999 "10.0.0.1"
            (banIP ⟨3, 24⟩ 1000 "10.0.0.1" initialState (some "fw down") none
              (fun _ => some "disk full") none).1 f o w b l
          = ((banIP ⟨3, 24⟩ 1000 "10.0.0.1" initialState (some "fw down") none
              (fun _ => some "disk full") none).1,
             [Effect.logWarn "尝试登录的IP已被封禁" "10.0.0.1"]) :=
  ban_not_rolled_back ⟨3, 24⟩ 1000 "10.0.0.1" initialState (some "fw down") none
    (fun _ => some "disk full") none 86400000000999
    (Or.inl (by decide)) (by decide)

/-- C3 (amended): every ban transition installs the Ban Record with
expiry `now + banDuration` and invokes the firewall block; only when the
block succeeds does it also persist the blacklist (whatever that write
returns) and emit the ban notification carrying the duration and the
computed expiry; on block failure it logs the error and skips both. -/
theorem ban_transition_effects (cfg : Config) (now : Nat) (ip : String) (s : MonitorState)
    (saveOpenErr : Option String) (writeErr : String → Option String) (nErr : Option String) :
    (∀ fwErr,
        lookupA (banIP cfg now ip s fwErr saveOpenErr writeErr nErr).1.bannedIPs ip
          = some (now + banDuration cfg)
        ∧ Effect.fwBan ip ∈ (banIP cfg now ip s fwErr saveOpenErr writeErr nErr).2)
    ∧ (banIP cfg now ip s none saveOpenErr writeErr nErr).2
        = [Effect.fwBan ip,
           Effect.persist
             (saveBlacklist (insertA s.bannedIPs ip (now + banDuration cfg)) saveOpenErr writeErr).1
             (saveBlacklist (insertA s.bannedIPs ip (now + banDuration cfg)) saveOpenErr writeErr).2,
           Effect.logInfo "IP已被封禁" ip, Effect.ipLookup ip,
           Effect.notifyBanned ip (banDuration cfg) (now + banDuration cfg)]
    ∧ ∀ e, (banIP cfg now ip s (some e) saveOpenErr writeErr nErr).2
        = [Effect.fwBan ip, Effect.logWithError "封禁IP失败" ip] := by
  refine ⟨?_, rfl, fun e => rfl⟩
  intro fwErr
  constructor
  · rw [banIP_fst]
    simp [lookupA_insertA]
  · exact fwBan_mem_banIP cfg now ip s fwErr saveOpenErr writeErr nErr

/-- Counterexample for C3 as stated: a threshold-reaching failure whose
firewall block fails is a ban transition (the Ban Record appears), yet no
blacklist write and no ban notification happen. -/
theorem ban_transition_cex :
    lookupA (handleFailedLogin ⟨3, 24⟩ 1000 "10.0.0.1" ⟨[("10.0.0.1", 2)], []⟩
        (some "fw down") none (fun _ => none) none none).1.bannedIPs "10.0.0.1"
      = some (1000 + banDuration ⟨3, 24⟩)
    ∧ ((handleFailedLogin ⟨3, 24⟩ 1000 "10.0.0.1" ⟨[("10.0.0.1", 2)], []⟩
        (some "fw down") none (fun _ => none) none none).2.all
          (fun e => !(isPersist e) && !(isNotifyBanned e))) = true := by
  constructor
  · rfl
  · rfl

/-- C9 (amended): the core discards every notification send result: each
handler behaves identically whether the send fails or succeeds (so a
failure is neither logged nor propagated), and it performs at most one
send of each kind per event (no retry). -/
theorem notify_failure_discarded (cfg : Config) (now : Nat) (ip : String) (s : MonitorState)
    (fwErr saveOpenErr : Option String) (writeErr : String → Option String)
    (b b' l l' n n' : Option String) :
    handleFailedLogin cfg now ip s fwErr saveOpenErr writeErr b l
      = handleFailedLogin cfg now ip s fwErr saveOpenErr writeErr b' l'
    ∧ handleSuccessfulLogin ip n = handleSuccessfulLogin ip n'
    ∧ banIP cfg now ip s fwErr saveOpenErr writeErr n
      = banIP cfg now ip s fwErr saveOpenErr writeErr n'
    ∧ (handleFailedLogin cfg now ip s fwErr saveOpenErr writeErr b l).2.countP isNotifyFailed ≤ 1
    ∧ (handleFailedLogin cfg now ip s fwErr saveOpenErr writeErr b l).2.countP isNotifyBanned ≤ 1
    ∧ (handleSuccessfulLogin ip n).countP isNotifySuccess = 1 := by
  have hb : ∀ (st : MonitorState) (x : Option String),
      (banIP cfg now ip st fwErr saveOpenErr writeErr x).2.countP isNotifyFailed = 0 := by
    intro st x
    cases fwErr <;> simp [banIP, List.countP_cons, isNotifyFailed]
  have hb2 : ∀ (st : MonitorState) (x : Option String),
      (banIP cfg now ip st fwErr saveOpenErr writeErr x).2.countP isNotifyBanned ≤ 1 := by
    intro st x
    cases fwErr <;> simp [banIP, List.countP_cons, isNotifyBanned]
  refine ⟨rfl, rfl, rfl, ?_, ?_, by simp [handleSuccessfulLogin, List.countP_cons, isNotifySuccess]⟩
  · unfold handleFailedLogin
    by_cases h : (isIPBanned now s ip).1
    · simp [h, List.countP_cons, isNotifyFailed]
    · simp only [h, Bool.false_eq_true, if_false]
      by_cases h2 : cfg.maxFailedAttempts ≤
          (lookupA (isIPBanned now s ip).2.failedAttempts ip).getD 0 + 1
      · simp [h2, List.countP_cons, List.countP_append, isNotifyFailed, hb]
      · simp [h2, List.countP_cons, List.countP_append, isNotifyFailed]
  · unfold handleFailedLogin
    by_cases h : (isIPBanned now s ip).1
    · simp [h, List.countP_cons, isNotifyBanned]
    · simp only [h, Bool.false_eq_true, if_false]
      by_cases h2 : cfg.maxFailedAttempts ≤
          (lookupA (isIPBanned now s ip).2.failedAttempts ip).getD 0 + 1
      · simp only [h2, if_true]
        simp [List.countP_cons, List.countP_append, isNotifyBanned]
        exact hb2 _ b
      · simp [h2, List.countP_cons, List.countP_append, isNotifyBanned]

/-- Counterexample for C9 as stated: a failing success-notification send
leaves no log record at all of the failure — the handler's output is the
same as on success and contains no `WithError` log entry. -/
theorem notify_failure_cex :
    handleSuccessfulLogin "10.0.0.9" (some "telegram down")
      = handleSuccessfulLogin "10.0.0.9" none
    ∧ (handleSuccessfulLogin "10.0.0.9" (some "telegram down")).all
        (fun e => !(isLogWithError e)) = true := by
  constructor
  · rfl
  · rfl

theorem saveLoop_all_ok (ips : List String) (writeErr : String → Option String)
    (h : ∀ x ∈ ips, writeErr x = none) : saveLoop ips writeErr = (ips, none) := by
  induction ips with
  | nil => rfl
  | cons ip rest ih =>
      have hip : writeErr ip = none := h ip (List.mem_cons_self ip rest)
      have hrest : saveLoop rest writeErr = (rest, none) :=
        ih (fun x hx => h x (List.mem_cons_of_mem ip hx))
      simp [saveLoop, hip, hrest]

theorem saveLoop_first_failure (pre : List String) (bad : String) (post : List String)
    (writeErr : String → Option String) (e : String)
    (hpre : ∀ x ∈ pre, writeErr x = none) (hbad : writeErr bad = some e) :
    saveLoop (pre ++ bad :: post) writeErr = (pre, some e) := by
  induction pre with
  | nil => simp [saveLoop, hbad]
  | cons x rest ih =>
      have hx : writeErr x = none := hpre x (List.mem_cons_self x rest)
      have hrest := ih (fun y hy => hpre y (List.mem_cons_of_mem x hy))
      simp [saveLoop, hx, hrest]

/-- C10: `saveBlacklist` truncates first and writes one address per line,
stopping at the first failed write; a failure partway through leaves the
file holding only the strict subset of banned addresses written before
it, and the ban path (`banIP`) carries on identically, the returned error
discarded. -/
theorem save_truncate_partial (banned : List (String × Nat)) (prev pre post : List String)
    (bad e : String) (writeErr : String → Option String)
    (hkeys : keysOf banned = pre ++ bad :: post)
    (hnd : (keysOf banned).Nodup)
    (hpre : ∀ x ∈ pre, writeErr x = none)
    (hbad : writeErr bad = some e) :
    saveBlacklist banned none writeErr = (pre, some e)
    ∧ fileAfterSave prev banned none writeErr = pre
    ∧ (∀ x ∈ pre, x ∈ keysOf banned)
    ∧ bad ∈ keysOf banned
    ∧ bad ∉ pre
    ∧ (∀ cfg now ip s fwErr nErr w',
        (banIP cfg now ip s fwErr none writeErr nErr).1
          = (banIP cfg now ip s fwErr none w' nErr).1)
    ∧ (∀ cfg now ip s nErr,
        Effect.notifyBanned ip (banDuration cfg) (now + banDuration cfg)
          ∈ (banIP cfg now ip s none none writeErr nErr).2) := by
  have hsl : saveLoop (keysOf banned) writeErr = (pre, some e) := by
    rw [hkeys]
    exact saveLoop_first_failure pre bad post writeErr e hpre hbad
  have hnd' : (pre ++ bad :: post).Nodup := hkeys ▸ hnd
  refine ⟨?_, ?_, ?_, ?_, ?_, ?_, ?_⟩
  · simp [saveBlacklist, hsl]
  · simp [fileAfterSave, hsl]
  · intro x hx
    rw [hkeys]
    exact List.mem_append_left _ hx
  · rw [hkeys]
    exact List.mem_append_right _ (List.mem_cons_self bad post)
  · intro hmem
    rcases List.nodup_append.mp hnd' with ⟨_, _, hdisj⟩
    exact hdisj hmem (List.mem_cons_self bad post)
  · intro cfg now ip s fwErr nErr w'
    rw [banIP_fst, banIP_fst]
  · intro cfg now ip s nErr
    simp [banIP]

/-- Witness for C10: three banned addresses, the write of the second
fails; the file ends up holding only the first. -/
theorem save_truncate_partial_w :
    saveBlacklist [("1.1.1.1", 5), ("2.2.2.2", 6), ("3.3.3.3", 7)] none
        (fun x => if x = "2.2.2.2" then some "disk full" else none)
      = (["1.1.1.1"], some "disk full")
    ∧ fileAfterSave ["9.9.9.9", "8.8.8.8"] [("1.1.1.1", 5), ("2.2.2.2", 6), ("3.3.3.3", 7)] none
        (fun x => if x = "2.2.2.2" then some "disk full" else none)
      = ["1.1.1.1"]
    ∧ (∀ x ∈ ["1.1.1.1"], x ∈ keysOf [("1.1.1.1", 5), ("2.2.2.2", 6), ("3.3.3.3", 7)])
    ∧ "2.2.2.2" ∈ keysOf [("1.1.1.1", 5), ("2.2.2.2", 6), ("3.3.3.3", 7)]
    ∧ "2.2.2.2" ∉ ["1.1.1.1"]
    ∧ (∀ cfg now ip s fwErr nErr w',
        (banIP cfg now ip s fwErr none
            (fun x => if x = "2.2.2.2" then some "disk full" else none) nErr).1
          = (banIP cfg now ip s fwErr none w' nErr).1)
    ∧ (∀ cfg now ip s nErr,
        Effect.notifyBanned ip (banDuration cfg) (now + banDuration cfg)
          ∈ (banIP cfg now ip s none none
              (fun x => if x = "2.2.2.2" then some "disk full" else none) nErr).2) :=
  save_truncate_partial [("1.1.1.1", 5), ("2.2.2.2", 6), ("3.3.3.3", 7)]
    ["9.9.9.9", "8.8.8.8"] ["1.1.1.1"] ["3.3.3.3"] "2.2.2.2" "disk full"
    (fun x => if x = "2.2.2.2" then some "disk full" else none)
    (by decide) (by decide) (by decide) (by decide)

theorem insertA_of_not_mem (m : List (String × Nat)) (k : String) (v : Nat)
    (h : k ∉ keysOf m) : insertA m k v = m ++ [(k, v)] := by
  induction m with
  | nil => rfl
  | cons p rest ih =>
      have hp : ¬ p.1 = k := by
        intro he
        exact h (by rw [← he]; exact List.mem_cons_self p.1 (keysOf rest))
      have hr : k ∉ keysOf rest := fun hm => h (List.mem_cons_of_mem p.1 hm)
      simp [insertA, hp, ih hr]

theorem loadBlacklist_fresh (lines : List String) (init : List (String × Nat))
    (loadNow : Nat) (cfg : Config)
    (hnd : lines.Nodup) (hne : ∀ x ∈ lines, x ≠ "")
    (hdisj : ∀ x ∈ lines, x ∉ keysOf init) :
    loadBlacklist init lines loadNow cfg
      = init ++ lines.map (fun x => (x, loadNow + banDuration cfg)) := by
  induction lines generalizing init with
  | nil => simp [loadBlacklist]
  | cons x rest ih =>
      have hx : x ≠ "" := hne x (List.mem_cons_self x rest)
      have hxk : x ∉ keysOf init := hdisj x (List.mem_cons_self x rest)
      have hstep : loadBlacklist init (x :: rest) loadNow cfg
          = loadBlacklist (insertA init x (loadNow + banDuration cfg)) rest loadNow cfg := by
        simp [loadBlacklist, hx]
      rw [hstep, insertA_of_not_mem init x _ hxk]
      have hkeys : keysOf (init ++ [(x, loadNow + banDuration cfg)]) = keysOf init ++ [x] := by
        simp [keysOf]
      have hdisj' : ∀ y ∈ rest, y ∉ keysOf (init ++ [(x, loadNow + banDuration cfg)]) := by
        intro y hy hmem
        rw [hkeys] at hmem
        rcases List.mem_append.mp hmem with hm | hm
        · exact hdisj y (List.mem_cons_of_mem x hy) hm
        · have : y = x := by simpa using hm
          exact (List.nodup_cons.mp hnd).1 (this ▸ hy)
      rw [ih _ (List.nodup_cons.mp hnd).2
            (fun y hy => hne y (List.mem_cons_of_mem x hy)) hdisj']
      simp

/-- C7: saving the blacklist while `banned` holds N distinct addresses
and reloading it at `loadNow` yields Ban Records for exactly those
addresses, in saved order, each with expiry `loadNow + banDuration cfg`
regardless of the expiry in force when the file was saved. -/
theorem blacklist_roundtrip (banned : List (String × Nat)) (loadNow : Nat) (cfg : Config)
    (hnd : (keysOf banned).Nodup) (hne : ∀ x ∈ keysOf banned, x ≠ "") :
    (saveBlacklist banned none (fun _ => none)).2 = none
    ∧ keysOf (loadBlacklist [] (saveBlacklist banned none (fun _ => none)).1 loadNow cfg)
        = keysOf banned
    ∧ (loadBlacklist [] (saveBlacklist banned none (fun _ => none)).1 loadNow cfg).length
        = banned.length
    ∧ ∀ k t, (k, t) ∈ banned →
        lookupA (loadBlacklist [] (saveBlacklist banned none (fun _ => none)).1 loadNow cfg) k
          = some (loadNow + banDuration cfg) := by
  have hsave : saveBlacklist banned none (fun _ => none) = (keysOf banned, none) := by
    simp [saveBlacklist, saveLoop_all_ok (keysOf banned) _ (fun x _ => rfl)]
  have hload : loadBlacklist [] (keysOf banned) loadNow cfg
      = (keysOf banned).map (fun x => (x, loadNow + banDuration cfg)) := by
    have := loadBlacklist_fresh (keysOf banned) [] loadNow cfg hnd hne
      (fun x _ hm => by simp [keysOf] at hm)
    simpa using this
  rw [hsave]
  refine ⟨rfl, ?_, ?_, ?_⟩
  · rw [hload]
    simp [keysOf, List.map_map]
  · rw [hload]
    simp [keysOf]
  · intro k t hmem
    rw [hload]
    have hk : k ∈ keysOf banned := List.mem_map.mpr ⟨(k, t), hmem, rfl⟩
    have hpair : (k, loadNow + banDuration cfg)
        ∈ (keysOf banned).map (fun x => (x, loadNow + banDuration cfg)) :=
      List.mem_map.mpr ⟨k, hk, rfl⟩
    have hndm : (keysOf ((keysOf banned).map (fun x => (x, loadNow + banDuration cfg)))).Nodup := by
      have : keysOf ((keysOf banned).map (fun x => (x, loadNow + banDuration cfg)))
          = keysOf banned := by
        simp [keysOf, List.map_map]
      rw [this]
      exact hnd
    exact lookupA_of_mem_nodup _ k _ hndm hpair

/-- Witness for C7: two banned addresses round-trip through the file,
both reloaded with the fresh expiry `999 + banDuration`. -/
theorem blacklist_roundtrip_w :
    (saveBlacklist [("1.1.1.1", 111), ("2.2.2.2", 222)] none (fun _ => none)).2 = none
    ∧ keysOf (loadBlacklist []
        (saveBlacklist [("1.1.1.1", 111), ("2.2.2.2", 222)] none (fun _ => none)).1 999 ⟨3, 24⟩)
        = keysOf [("1.1.1.1", 111), ("2.2.2.2", 222)]
    ∧ (loadBlacklist []
        (saveBlacklist [("1.1.1.1", 111), ("2.2.2.2", 222)] none (fun _ => none)).1 999 ⟨3, 24⟩).length
        = [("1.1.1.1", 111), ("2.2.2.2", 222)].length
    ∧ ∀ k t, (k, t) ∈ [("1.1.1.1", 111), ("2.2.2.2", 222)] →
        lookupA (loadBlacklist []
            (saveBlacklist [("1.1.1.1", 111), ("2.2.2.2", 222)] none (fun _ => none)).1 999 ⟨3, 24⟩) k
          = some (999 + banDuration ⟨3, 24⟩) :=
  blacklist_roundtrip [("1.1.1.1", 111), ("2.2.2.2", 222)] 999 ⟨3, 24⟩
    (by decide) (by decide)

theorem mem_drop_of_get (f : List String) (base pos : Nat) (h : pos < f.length)
    (hb : base ≤ pos) : f.get ⟨pos, h⟩ ∈ f.drop base := by
  rw [List.get_eq_getElem]
  have hj : pos - base < (f.drop base).length := by
    rw [List.length_drop]; omega
  have h4 := List.getElem_mem hj
  rw [List.getElem_drop] at h4
  have h3 : base + (pos - base) = pos := by omega
  simp only [h3] at h4
  exact h4

theorem tailRun_no_injected_err (trace : List (List String × Option String)) :
    ∀ pos, (∀ p ∈ trace, p.2 = none) → (tailRun pos trace).2 = none := by
  induction trace with
  | nil =>
      intro pos _
      rfl
  | cons q rest ih =>
      intro pos h
      obtain ⟨f, inj⟩ := q
      have hq : inj = none := h (f, inj) (List.mem_cons_self _ _)
      subst hq
      have hrest : ∀ p ∈ rest, p.2 = none := fun p hp => h p (List.mem_cons_of_mem _ hp)
      by_cases hlt : pos < f.length
      · simp [tailRun, readLine, hlt, ih (pos + 1) hrest]
      · simp [tailRun, readLine, hlt, ih pos hrest]

theorem tailRun_process_from_tail (base : Nat) (trace : List (List String × Option String)) :
    ∀ pos, base ≤ pos → ∀ l, TailEvent.process l ∈ (tailRun pos trace).1 →
      ∃ fs inj, (fs, inj) ∈ trace ∧ l ∈ fs.drop base := by
  induction trace with
  | nil =>
      intro pos _ l hl
      simp [tailRun] at hl
  | cons q rest ih =>
      intro pos hbase l hl
      obtain ⟨f, inj⟩ := q
      cases inj with
      | some e => simp [tailRun, readLine] at hl
      | none =>
          by_cases hlt : pos < f.length
          · have hrun : tailRun pos ((f, none) :: rest)
                = (TailEvent.process (f.get ⟨pos, hlt⟩) :: (tailRun (pos + 1) rest).1,
                   (tailRun (pos + 1) rest).2) := by
              simp [tailRun, readLine, hlt]
            rw [hrun] at hl
            rcases List.mem_cons.mp hl with he | hm
            · have hle : l = f.get ⟨pos, hlt⟩ := by
                injection he
              refine ⟨f, none, List.mem_cons_self _ _, ?_⟩
              rw [hle]
              exact mem_drop_of_get f base pos hlt hbase
            · obtain ⟨fs, inj', hmem, hdrop⟩ := ih (pos + 1) (by omega) l hm
              exact ⟨fs, inj', List.mem_cons_of_mem _ hmem, hdrop⟩
          · have hrun : tailRun pos ((f, none) :: rest)
                = (TailEvent.sleepMs sleepIntervalMs :: (tailRun pos rest).1,
                   (tailRun pos rest).2) := by
              simp [tailRun, readLine, hlt]
            rw [hrun] at hl
            rcases List.mem_cons.mp hl with he | hm
            · simp at he
            · obtain ⟨fs, inj', hmem, hdrop⟩ := ih pos hbase l hm
              exact ⟨fs, inj', List.mem_cons_of_mem _ hmem, hdrop⟩

/-- C8: the tailer starts at the end of the file present at open time
(every processed line comes from beyond that point), answers every
end-of-stream read with a fixed sub-second sleep and a retry (it can only
end with an error when a non-EOF read error is injected), and propagates
an open failure or a non-EOF read error as the fatal result. -/
theorem tailer_seek_retry_fatal (openE : String) (f0 : List String)
    (trace : List (List String × Option String)) (pos : Nat) (f : List String)
    (e : String) (rest : List (List String × Option String)) :
    monitorSSHLogs (some openE) f0 trace = ([], some openE)
    ∧ monitorSSHLogs none f0 trace = tailRun f0.length trace
    ∧ (f.length ≤ pos →
        tailRun pos ((f, none) :: rest)
          = (TailEvent.sleepMs sleepIntervalMs :: (tailRun pos rest).1, (tailRun pos rest).2))
    ∧ sleepIntervalMs < 1000
    ∧ tailRun pos ((f, some e) :: rest) = ([], some e)
    ∧ ((∀ p ∈ trace, p.2 = none) → (tailRun pos trace).2 = none)
    ∧ (∀ l, TailEvent.process l ∈ (monitorSSHLogs none f0 trace).1 →
        ∃ fs inj, (fs, inj) ∈ trace ∧ l ∈ fs.drop f0.length) := by
  refine ⟨rfl, rfl, ?_, by decide, rfl, tailRun_no_injected_err trace pos, ?_⟩
  · intro hle
    have hlt : ¬ pos < f.length := by omega
    simp [tailRun, readLine, hlt]
  · intro l hl
    exact tailRun_process_from_tail f0.length trace f0.length (le_refl _) l hl

/-- Witness for C8: a two-line file at open time, one EOF retry, one new
line processed, then an injected read error ends the run fatally. -/
theorem tailer_seek_retry_fatal_w :
    monitorSSHLogs (some "open failed") ["h1", "h2"]
        [(["h1", "h2"], none), (["h1", "h2", "x"], none), (["h1", "h2", "x"], some "bad")]
      = ([], some "open failed")
    ∧ monitorSSHLogs none ["h1", "h2"]
        [(["h1", "h2"], none), (["h1", "h2", "x"], none), (["h1", "h2", "x"], some "bad")]
      = tailRun (["h1", "h2"] : List String).length
          [(["h1", "h2"], none), (["h1", "h2", "x"], none), (["h1", "h2", "x"], some "bad")]
    ∧ ((["a"] : List String).length ≤ 1 →
        tailRun 1 [((["a"] : List String), none)]
          = (TailEvent.sleepMs sleepIntervalMs :: (tailRun 1 []).1, (tailRun 1 []).2))
    ∧ sleepIntervalMs < 1000
    ∧ tailRun 1 [((["a"] : List String), some "bad")] = ([], some "bad")
    ∧ ((∀ p ∈ [((["h1", "h2"] : List String), (none : Option String)),
          (["h1", "h2", "x"], none), (["h1", "h2", "x"], some "bad")], p.2 = none) →
        (tailRun 1 [((["h1", "h2"] : List String), (none : Option String)),
          (["h1", "h2", "x"], none), (["h1", "h2", "x"], some "bad")]).2 = none)
    ∧ (∀ l, TailEvent.process l ∈ (monitorSSHLogs none ["h1", "h2"]
          [(["h1", "h2"], none), (["h1", "h2", "x"], none), (["h1", "h2", "x"], some "bad")]).1 →
        ∃ fs inj, (fs, inj) ∈ [((["h1", "h2"] : List String), (none : Option String)),
            (["h1", "h2", "x"], none), (["h1", "h2", "x"], some "bad")]
          ∧ l ∈ fs.drop (["h1", "h2"] : List String).length) :=
  tailer_seek_retry_fatal "open failed" ["h1", "h2"]
    [(["h1", "h2"], none), (["h1", "h2", "x"], none), (["h1", "h2", "x"], some "bad")]
    1 ["a"] "bad" []

/-- The addresses among `entries` whose ban expiry lies strictly before
`now` — the ones `time.Now().After(banTime)` selects in the sweep. -/
def expiredKeys (entries : List (String × Nat)) (now : Nat) : List String :=
  match entries with
  | [] => []
  | (ip, t) :: rest =>
      if t < now then ip :: expiredKeys rest now else expiredKeys rest now

/-- Erase a list of keys in order. -/
def eraseAll (ks : List String) (m : List (String × Nat)) : List (String × Nat) :=
  match ks with
  | [] => m
  | k :: rest => eraseAll rest (eraseA m k)

/-- The effect stream one sweep emits for the expired addresses `ks`. -/
def unbanEffects (ks : List String) (o : String → Option String) : List Effect :=
  match ks with
  | [] => []
  | k :: rest =>
      (match o k with
       | some _ => [Effect.fwUnban k, Effect.logWithError "解除IP封禁失败" k]
       | none => [Effect.fwUnban k, Effect.logInfo "IP已解除封禁" k]) ++ unbanEffects rest o

/-- The addresses an effect stream calls the firewall unban for, in
order. -/
def unbanTargets (effs : List Effect) : List String :=
  match effs with
  | [] => []
  | Effect.fwUnban k :: rest => k :: unbanTargets rest
  | _ :: rest => unbanTargets rest

theorem lookupA_eraseAll (ks : List String) (m : List (String × Nat)) (k : String) :
    lookupA (eraseAll ks m) k = if k ∈ ks then none else lookupA m k := by
  induction ks generalizing m with
  | nil => simp [eraseAll]
  | cons k0 rest ih =>
      by_cases h : k ∈ rest
      · simp [eraseAll, ih, h]
      · by_cases h0 : k = k0
        · subst h0
          simp [eraseAll, ih, h, lookupA_eraseA]
        · simp [eraseAll, ih, h, h0, lookupA_eraseA]

theorem mem_expiredKeys (entries : List (String × Nat)) (now : Nat) (k : String) :
    k ∈ expiredKeys entries now ↔ ∃ t, (k, t) ∈ entries ∧ t < now := by
  induction entries with
  | nil => simp [expiredKeys]
  | cons q rest ih =>
      obtain ⟨k0, t0⟩ := q
      by_cases h : t0 < now
      · simp only [expiredKeys, if_pos h, List.mem_cons]
        constructor
        · intro hm
          rcases hm with he | hm'
          · exact ⟨t0, Or.inl (by rw [he]), h⟩
          · obtain ⟨t, hmem, hlt⟩ := ih.mp hm'
            exact ⟨t, Or.inr hmem, hlt⟩
        · intro hex
          obtain ⟨t, hmem, hlt⟩ := hex
          rcases hmem with he | hmem'
          · exact Or.inl (congrArg Prod.fst he)
          · exact Or.inr (ih.mpr ⟨t, hmem', hlt⟩)
      · simp only [expiredKeys, if_neg h]
        rw [ih]
        constructor
        · intro hex
          obtain ⟨t, hmem, hlt⟩ := hex
          exact ⟨t, List.mem_cons_of_mem _ hmem, hlt⟩
        · intro hex
          obtain ⟨t, hmem, hlt⟩ := hex
          rcases List.mem_cons.mp hmem with he | hmem'
          · have ht : t = t0 := congrArg Prod.snd he
            exact absurd (ht ▸ hlt) h
          · exact ⟨t, hmem', hlt⟩

theorem cleanupLoop_fst (entries : List (String × Nat)) (now : Nat) :
    ∀ (s : MonitorState) (o : String → Option String),
      (cleanupLoop entries now s o).1
        = { failedAttempts := eraseAll (expiredKeys entries now) s.failedAttempts,
            bannedIPs := eraseAll (expiredKeys entries now) s.bannedIPs } := by
  induction entries with
  | nil =>
      intro s o
      rfl
  | cons q rest ih =>
      intro s o
      obtain ⟨k, t⟩ := q
      by_cases h : t < now
      · simp [cleanupLoop, expiredKeys, h, eraseAll,
          ih ⟨eraseA s.failedAttempts k, eraseA s.bannedIPs k⟩ o]
      · simp [cleanupLoop, expiredKeys, h, ih s o]

theorem cleanupLoop_snd (entries : List (String × Nat)) (now : Nat) :
    ∀ (s : MonitorState) (o : String → Option String),
      (cleanupLoop entries now s o).2 = unbanEffects (expiredKeys entries now) o := by
  induction entries with
  | nil =>
      intro s o
      rfl
  | cons q rest ih =>
      intro s o
      obtain ⟨k, t⟩ := q
      by_cases h : t < now
      · cases ho : o k <;>
          simp [cleanupLoop, expiredKeys, h, ho, unbanEffects,
            ih ⟨eraseA s.failedAttempts k, eraseA s.bannedIPs k⟩ o]
      · simp [cleanupLoop, expiredKeys, h, unbanEffects, ih s o]

theorem unbanTargets_unbanEffects (ks : List String) (o : String → Option String) :
    unbanTargets (unbanEffects ks o) = ks := by
  induction ks with
  | nil => rfl
  | cons k rest ih =>
      cases ho : o k <;> simp [unbanEffects, ho, unbanTargets, ih]

theorem logWithError_mem_unbanEffects (ks : List String) (o : String → Option String)
    (k : String) (e : String) (ho : o k = some e) (hk : k ∈ ks) :
    Effect.logWithError "解除IP封禁失败" k ∈ unbanEffects ks o := by
  induction ks with
  | nil => simp at hk
  | cons k0 rest ih =>
      rcases List.mem_cons.mp hk with he | hm
      · subst he
        simp [unbanEffects, ho]
      · cases ho0 : o k0 <;>
          · simp only [unbanEffects, ho0]
            exact List.mem_append_right _ (ih hm)

/-- C5: one sweep tick removes both records for exactly the banned
addresses whose expiry has passed (others keep both records untouched),
calls the firewall unban exactly once per expired address, and treats a
per-address unban failure as best-effort: it is logged, the records are
still removed, the rest are still processed, and the resulting state does
not depend on the unban answers at all. -/
theorem sweep_best_effort (now : Nat) (s : MonitorState) (o : String → Option String)
    (hnd : (keysOf s.bannedIPs).Nodup) :
    (∀ k t, (k, t) ∈ s.bannedIPs → t < now →
        lookupA (cleanupTick now s o).1.bannedIPs k = none
        ∧ lookupA (cleanupTick now s o).1.failedAttempts k = none)
    ∧ (∀ k t, (k, t) ∈ s.bannedIPs → ¬ t < now →
        lookupA (cleanupTick now s o).1.bannedIPs k = some t
        ∧ lookupA (cleanupTick now s o).1.failedAttempts k = lookupA s.failedAttempts k)
    ∧ unbanTargets (cleanupTick now s o).2 = expiredKeys s.bannedIPs now
    ∧ (∀ k, k ∈ expiredKeys s.bannedIPs now ↔ ∃ t, (k, t) ∈ s.bannedIPs ∧ t < now)
    ∧ (∀ o', (cleanupTick now s o').1 = (cleanupTick now s o).1)
    ∧ (∀ k e, o k = some e → k ∈ expiredKeys s.bannedIPs now →
        Effect.logWithError "解除IP封禁失败" k ∈ (cleanupTick now s o).2) := by
  have hfst := cleanupLoop_fst s.bannedIPs now s o
  have hsnd := cleanupLoop_snd s.bannedIPs now s o
  refine ⟨?_, ?_, ?_, fun k => mem_expiredKeys s.bannedIPs now k, ?_, ?_⟩
  · intro k t hmem hlt
    have hk : k ∈ expiredKeys s.bannedIPs now :=
      (mem_expiredKeys s.bannedIPs now k).mpr ⟨t, hmem, hlt⟩
    unfold cleanupTick
    rw [hfst]
    constructor <;> simp [lookupA_eraseAll, hk]
  · intro k t hmem hnlt
    have hk : k ∉ expiredKeys s.bannedIPs now := by
      intro hk
      obtain ⟨t', hmem', hlt'⟩ := (mem_expiredKeys s.bannedIPs now k).mp hk
      have h1 : lookupA s.bannedIPs k = some t := lookupA_of_mem_nodup _ k t hnd hmem
      have h2 : lookupA s.bannedIPs k = some t' := lookupA_of_mem_nodup _ k t' hnd hmem'
      rw [h1] at h2
      exact hnlt (Option.some.inj h2 ▸ hlt')
    unfold cleanupTick
    rw [hfst]
    refine ⟨?_, ?_⟩
    · simp [lookupA_eraseAll, hk]
      exact lookupA_of_mem_nodup _ k t hnd hmem
    · simp [lookupA_eraseAll, hk]
  · unfold cleanupTick
    rw [hsnd]
    exact unbanTargets_unbanEffects _ o
  · intro o'
    unfold cleanupTick
    rw [cleanupLoop_fst s.bannedIPs now s o', hfst]
  · intro k e ho hk
    unfold cleanupTick
    rw [hsnd]
    exact logWithError_mem_unbanEffects _ o k e ho hk

/-- Witness for C5: five bans, two expired at `now = 100`, the unban of
one of the two fails; both expired entries are removed, the other three
stay, unban is called exactly twice. -/
theorem sweep_best_effort_w :
    (∀ k t, (k, t) ∈ ([("1.1.1.1", 10), ("2.2.2.2", 20), ("3.3.3.3", 300),
        ("4.4.4.4", 400), ("5.5.5.5", 500)] : List (String × Nat)) → t < 100 →
        lookupA (cleanupTick 100 ⟨[("1.1.1.1", 7)], [("1.1.1.1", 10), ("2.2.2.2", 20),
            ("3.3.3.3", 300), ("4.4.4.4", 400), ("5.5.5.5", 500)]⟩
          (fun x => if x = "1.1.1.1" then some "ufw failed" else none)).1.bannedIPs k = none
        ∧ lookupA (cleanupTick 100 ⟨[("1.1.1.1", 7)], [("1.1.1.1", 10), ("2.2.2.2", 20),
            ("3.3.3.3", 300), ("4.4.4.4", 400), ("5.5.5.5", 500)]⟩
          (fun x => if x = "1.1.1.1" then some "ufw failed" else none)).1.failedAttempts k = none)
    ∧ (∀ k t, (k, t) ∈ ([("1.1.1.1", 10), ("2.2.2.2", 20), ("3.3.3.3", 300),
        ("4.4.4.4", 400), ("5.5.5.5", 500)] : List (String × Nat)) → ¬ t < 100 →
        lookupA (cleanupTick 100 ⟨[("1.1.1.1", 7)], [("1.1.1.1", 10), ("2.2.2.2", 20),
            ("3.3.3.3", 300), ("4.4.4.4", 400), ("5.5.5.5", 500)]⟩
          (fun x => if x = "1.1.1.1" then some "ufw failed" else none)).1.bannedIPs k = some t
        ∧ lookupA (cleanupTick 100 ⟨[("1.1.1.1", 7)], [("1.1.1.1", 10), ("2.2.2.2", 20),
            ("3.3.3.3", 300), ("4.4.4.4", 400), ("5.5.5.5", 500)]⟩
          (fun x => if x = "1.1.1.1" then some "ufw failed" else none)).1.failedAttempts k
          = lookupA [("1.1.1.1", 7)] k)
    ∧ unbanTargets (cleanupTick 100 ⟨[("1.1.1.1", 7)], [("1.1.1.1", 10), ("2.2.2.2", 20),
        ("3.3.3.3", 300), ("4.4.4.4", 400), ("5.5.5.5", 500)]⟩
        (fun x => if x = "1.1.1.1" then some "ufw failed" else none)).2
      = expiredKeys [("1.1.1.1", 10), ("2.2.2.2", 20), ("3.3.3.3", 300),
          ("4.4.4.4", 400), ("5.5.5.5", 500)] 100
    ∧ (∀ k, k ∈ expiredKeys [("1.1.1.1", 10), ("2.2.2.2", 20), ("3.3.3.3", 300),
          ("4.4.4.4", 400), ("5.5.5.5", 500)] 100
        ↔ ∃ t, (k, t) ∈ ([("1.1.1.1", 10), ("2.2.2.2", 20), ("3.3.3.3", 300),
            ("4.4.4.4", 400), ("5.5.5.5", 500)] : List (String × Nat)) ∧ t < 100)
    ∧ (∀ o', (cleanupTick 100 ⟨[("1.1.1.1", 7)], [("1.1.1.1", 10), ("2.2.2.2", 20),
          ("3.3.3.3", 300), ("4.4.4.4", 400), ("5.5.5.5", 500)]⟩ o').1
        = (cleanupTick 100 ⟨[("1.1.1.1", 7)], [("1.1.1.1", 10), ("2.2.2.2", 20),
            ("3.3.3.3", 300), ("4.4.4.4", 400), ("5.5.5.5", 500)]⟩
          (fun x => if x = "1.1.1.1" then some "ufw failed" else none)).1)
    ∧ (∀ k e, (fun x => if x = "1.1.1.1" then some "ufw failed" else none) k = some e →
        k ∈ expiredKeys [("1.1.1.1", 10), ("2.2.2.2", 20), ("3.3.3.3", 300),
          ("4.4.4.4", 400), ("5.5.5.5", 500)] 100 →
        Effect.logWithError "解除IP封禁失败" k ∈ (cleanupTick 100 ⟨[("1.1.1.1", 7)],
          [("1.1.1.1", 10), ("2.2.2.2", 20), ("3.3.3.3", 300), ("4.4.4.4", 400),
           ("5.5.5.5", 500)]⟩
          (fun x => if x = "1.1.1.1" then some "ufw failed" else none)).2) :=
  sweep_best_effort 100 ⟨[("1.1.1.1", 7)], [("1.1.1.1", 10), ("2.2.2.2", 20),
    ("3.3.3.3", 300), ("4.4.4.4", 400), ("5.5.5.5", 500)]⟩
    (fun x => if x = "1.1.1.1" then some "ufw failed" else none) (by decide)

theorem stepFail_unbanned (cfg : Config) (now : Nat) (ip : String) (fa : List (String × Nat)) :
    (handleFailedLogin cfg now ip ⟨fa, []⟩ none none (fun _ => none) none none).1
      = (if cfg.maxFailedAttempts ≤ (lookupA fa ip).getD 0 + 1
         then (⟨insertA fa ip ((lookupA fa ip).getD 0 + 1),
               [(ip, now + banDuration cfg)]⟩ : MonitorState)
         else ⟨insertA fa ip ((lookupA fa ip).getD 0 + 1), []⟩) := by
  have h : (isIPBanned now ⟨fa, []⟩ ip).1 = false := by
    simp [isIPBanned, lookupA]
  rw [handleFailedLogin_fst_notBanned cfg now ip ⟨fa, []⟩ _ _ _ _ _ h]
  have h2 : isIPBanned now ⟨fa, []⟩ ip = (false, ⟨fa, []⟩) := by
    simp [isIPBanned, lookupA]
  rw [h2]
  by_cases h3 : cfg.maxFailedAttempts ≤ (lookupA fa ip).getD 0 + 1 <;>
    simp [h3, countF, insertA]

theorem failStreak_below (cfg : Config) (now : Nat) (ip : String) (N : Nat)
    (hN : cfg.maxFailedAttempts = N) :
    ∀ k, k < N →
      failStreak cfg now ip k = if k = 0 then initialState else ⟨[(ip, k)], []⟩ := by
  intro k
  induction k with
  | zero =>
      intro _
      rfl
  | succ k ih =>
      intro hk
      have hstep : failStreak cfg now ip (k + 1)
          = (handleFailedLogin cfg now ip (failStreak cfg now ip k)
              none none (fun _ => none) none none).1 := rfl
      by_cases hk0 : k = 0
      · subst hk0
        have hprev0 : failStreak cfg now ip 0 = (⟨[], []⟩ : MonitorState) := rfl
        rw [hstep, hprev0, stepFail_unbanned]
        have hle : ¬ cfg.maxFailedAttempts ≤ (lookupA [] ip).getD 0 + 1 := by
          simp [lookupA]
          omega
        rw [if_neg hle]
        simp [lookupA, insertA]
      · have hprev : failStreak cfg now ip k = (⟨[(ip, k)], []⟩ : MonitorState) := by
          rw [ih (by omega)]
          simp [hk0]
        rw [hstep, hprev, stepFail_unbanned]
        have hcnt : (lookupA [(ip, k)] ip).getD 0 + 1 = k + 1 := by
          simp [lookupA]
        rw [hcnt]
        have hle : ¬ cfg.maxFailedAttempts ≤ k + 1 := by omega
        rw [if_neg hle]
        simp [insertA]

theorem failStreak_at_threshold (cfg : Config) (now : Nat) (ip : String) (N : Nat)
    (hN : cfg.maxFailedAttempts = N) (h1 : 1 ≤ N) :
    failStreak cfg now ip N = ⟨[(ip, N)], [(ip, now + banDuration cfg)]⟩ := by
  obtain ⟨M, rfl⟩ : ∃ M, N = M + 1 := ⟨N - 1, by omega⟩
  have hstep : failStreak cfg now ip (M + 1)
      = (handleFailedLogin cfg now ip (failStreak cfg now ip M)
          none none (fun _ => none) none none).1 := rfl
  by_cases hM : M = 0
  · subst hM
    have hprev0 : failStreak cfg now ip 0 = (⟨[], []⟩ : MonitorState) := rfl
    rw [hstep, hprev0, stepFail_unbanned]
    have hcnt : (lookupA [] ip).getD 0 + 1 = 1 := by simp [lookupA]
    rw [hcnt]
    have hle : cfg.maxFailedAttempts ≤ 1 := by omega
    rw [if_pos hle]
    simp [insertA]
  · have hprev : failStreak cfg now ip M = (⟨[(ip, M)], []⟩ : MonitorState) := by
      rw [failStreak_below cfg now ip (M + 1) hN M (by omega)]
      simp [hM]
    rw [hstep, hprev, stepFail_unbanned]
    have hcnt : (lookupA [(ip, M)] ip).getD 0 + 1 = M + 1 := by simp [lookupA]
    rw [hcnt]
    have hle : cfg.maxFailedAttempts ≤ M + 1 := by omega
    rw [if_pos hle]
    simp [insertA]

theorem fwBan_mem_handleFailedLogin (cfg : Config) (now : Nat) (ip : String)
    (s : MonitorState) (f o : Option String) (w : String → Option String)
    (b l : Option String)
    (h : (isIPBanned now s ip).1 = false)
    (hth : cfg.maxFailedAttempts ≤ (lookupA (isIPBanned now s ip).2.failedAttempts ip).getD 0 + 1) :
    Effect.fwBan ip ∈ (handleFailedLogin cfg now ip s f o w b l).2 := by
  unfold handleFailedLogin
  simp only [h, Bool.false_eq_true, if_false, hth, if_true]
  exact List.mem_cons_of_mem _ (List.mem_append_left _ (fwBan_mem_banIP _ _ _ _ _ _ _ _))

/-- C1: with threshold `N ≥ 1` and a positive ban duration, starting from
the fresh state, each of the first `N - 1` failure events leaves the
count at its index and the address unbanned; the `N`-th failure puts the
count at `N`, reaches the threshold and triggers the ban (the firewall
block is invoked and the Ban Record appears with expiry
`now + banDuration`); a further failure from the address is rejected with
the state unchanged, because `isIPBanned` is now true. -/
theorem failed_login_threshold (cfg : Config) (ip : String) (N now k : Nat)
    (hN : cfg.maxFailedAttempts = N) (h1 : 1 ≤ N) (hd : 0 < cfg.banDurationHours)
    (hk : k < N) :
    countF (failStreak cfg now ip k) ip = k
    ∧ lookupA (failStreak cfg now ip k).bannedIPs ip = none
    ∧ countF (failStreak cfg now ip N) ip = N
    ∧ lookupA (failStreak cfg now ip N).bannedIPs ip = some (now + banDuration cfg)
    ∧ Effect.fwBan ip ∈ (handleFailedLogin cfg now ip (failStreak cfg now ip (N - 1))
        none none (fun _ => none) none none).2
    ∧ (∀ f o w b l, handleFailedLogin cfg now ip (failStreak cfg now ip N) f o w b l
        = (failStreak cfg now ip N, [Effect.logWarn "尝试登录的IP已被封禁" ip])) := by
  have hdur : 0 < banDuration cfg := Nat.mul_pos hd (by decide)
  have hbelow := failStreak_below cfg now ip N hN
  have hatN := failStreak_at_threshold cfg now ip N hN h1
  have hPrevForm := hbelow (N - 1) (by omega)
  refine ⟨?_, ?_, ?_, ?_, ?_, ?_⟩
  · rw [hbelow k hk]
    by_cases hk0 : k = 0
    · simp [hk0, initialState, countF, lookupA]
    · simp [hk0, countF, lookupA]
  · rw [hbelow k hk]
    by_cases hk0 : k = 0
    · simp [hk0, initialState, lookupA]
    · simp [hk0, lookupA]
  · rw [hatN]
    simp [countF, lookupA]
  · rw [hatN]
    simp [lookupA]
  · have hfa : (failStreak cfg now ip (N - 1)).bannedIPs = [] := by
      rw [hPrevForm]
      by_cases h0 : N - 1 = 0 <;> simp [h0, initialState]
    have hnb : (isIPBanned now (failStreak cfg now ip (N - 1)) ip).1 = false := by
      simp [isIPBanned, hfa, lookupA]
    have hsame : (isIPBanned now (failStreak cfg now ip (N - 1)) ip).2
        = failStreak cfg now ip (N - 1) := by
      simp [isIPBanned, hfa, lookupA]
    apply fwBan_mem_handleFailedLogin cfg now ip _ _ _ _ _ _ hnb
    rw [hsame, hPrevForm]
    by_cases h0 : N - 1 = 0
    · simp [h0, initialState, lookupA]
      omega
    · simp [h0, lookupA]
      omega
  · intro f o w b l
    apply handleFailedLogin_of_banned cfg now ip _ f o w b l (now + banDuration cfg)
    · rw [hatN]
      simp [lookupA]
    · omega

/-- Witness for C1 at threshold 3: two failures stay unbanned at count 2,
the third call bans `10.0.0.1` and a fourth failure is rejected
unchanged. -/
theorem failed_login_threshold_w :
    countF (failStreak ⟨3, 24⟩ 1000 "10.0.0.1" 2) "10.0.0.1" = 2
    ∧ lookupA (failStreak ⟨3, 24⟩ 1000 "10.0.0.1" 2).bannedIPs "10.0.0.1" = none
    ∧ countF (failStreak ⟨3, 24⟩ 1000 "10.0.0.1" 3) "10.0.0.1" = 3
    ∧ lookupA (failStreak ⟨3, 24⟩ 1000 "10.0.0.1" 3).bannedIPs "10.0.0.1"
        = some (1000 + banDuration ⟨3, 24⟩)
    ∧ Effect.fwBan "10.0.0.1" ∈ (handleFailedLogin ⟨3, 24⟩ 1000 "10.0.0.1"
        (failStreak ⟨3, 24⟩ 1000 "10.0.0.1" (3 - 1)) none none (fun _ => none) none none).2
    ∧ (∀ f o w b l, handleFailedLogin ⟨3, 24⟩ 1000 "10.0.0.1"
          (failStreak ⟨3, 24⟩ 1000 "10.0.0.1" 3) f o w b l
        = (failStreak ⟨3, 24⟩ 1000 "10.0.0.1" 3,
           [Effect.logWarn "尝试登录的IP已被封禁" "10.0.0.1"])) :=
  failed_login_threshold ⟨3, 24⟩ "10.0.0.1" 3 1000 2 rfl (by decide) (by decide) (by decide)

theorem isIPBanned_snd_cases (now : Nat) (s : MonitorState) (j : String) :
    (isIPBanned now s j).2 = s
    ∨ ((isIPBanned now s j).2
        = (⟨eraseA s.failedAttempts j, eraseA s.bannedIPs j⟩ : MonitorState)
      ∧ ∃ t0, lookupA s.bannedIPs j = some t0 ∧ t0 ≤ now) := by
  unfold isIPBanned
  cases h : lookupA s.bannedIPs j with
  | none => exact Or.inl rfl
  | some t0 =>
      by_cases hlt : now < t0
      · exact Or.inl (by simp [hlt])
      · exact Or.inr ⟨by simp [hlt], t0, rfl, by omega⟩

theorem isIPBanned_true_snd (now : Nat) (s : MonitorState) (j : String)
    (h : (isIPBanned now s j).1 = true) : (isIPBanned now s j).2 = s := by
  cases hl : lookupA s.bannedIPs j with
  | none =>
      simp [isIPBanned, hl] at h
  | some t0 =>
      by_cases hlt : now < t0
      · simp [isIPBanned, hl, hlt]
      · simp [isIPBanned, hl, hlt] at h

theorem isIPBanned_fst_of_active (now : Nat) (s : MonitorState) (j : String) (t : Nat)
    (hl : lookupA s.bannedIPs j = some t) (hlt : now < t) :
    (isIPBanned now s j).1 = true := by
  simp [isIPBanned, hl, hlt]

theorem handleFailedLogin_fst_of_banned_bool (cfg : Config) (now : Nat) (j : String)
    (s : MonitorState) (f o : Option String) (w : String → Option String)
    (b l : Option String) (h : (isIPBanned now s j).1 = true) :
    (handleFailedLogin cfg now j s f o w b l).1 = (isIPBanned now s j).2 := by
  unfold handleFailedLogin
  simp [h]

theorem handleFailedLogin_failedAttempts (cfg : Config) (now : Nat) (j : String)
    (s : MonitorState) (f o : Option String) (w : String → Option String)
    (b l : Option String) (h : (isIPBanned now s j).1 = false) :
    (handleFailedLogin cfg now j s f o w b l).1.failedAttempts
      = insertA (isIPBanned now s j).2.failedAttempts j
          (countF (isIPBanned now s j).2 j + 1) := by
  rw [handleFailedLogin_fst_notBanned cfg now j s f o w b l h]
  by_cases h2 : cfg.maxFailedAttempts ≤ countF (isIPBanned now s j).2 j + 1
  · simp [h2]
  · simp [h2]

/-- C6: in one step of any operation, the failure count of an address
with no Ban Record never decreases; the count of an address whose Ban
Record is still active is unchanged; and any decrease implies the address
held a Ban Record whose expiry was already reached (lazy expiry or the
sweep cleared it). -/
theorem count_monotone_per_step (cfg : Config) (s : MonitorState) (op : Op) (ip : String)
    (hnd : (keysOf s.bannedIPs).Nodup) :
    (lookupA s.bannedIPs ip = none → countF s ip ≤ countF (stepState cfg s op) ip)
    ∧ (∀ t, lookupA s.bannedIPs ip = some t → opNow op < t →
        countF (stepState cfg s op) ip = countF s ip)
    ∧ (countF (stepState cfg s op) ip < countF s ip →
        ∃ t, lookupA s.bannedIPs ip = some t ∧ t ≤ opNow op) := by
  cases op with
  | success now j =>
      exact ⟨fun _ => le_refl _, fun t _ _ => rfl, fun hlt => absurd hlt (lt_irrefl _)⟩
  | check now j =>
      simp only [opNow]
      have hs' : stepState cfg s (.check now j) = (isIPBanned now s j).2 := rfl
      rcases isIPBanned_snd_cases now s j with h | ⟨herase, t0, hl0, ht0⟩
      · rw [hs', h]
        exact ⟨fun _ => le_refl _, fun t _ _ => rfl, fun hlt => absurd hlt (lt_irrefl _)⟩
      · rw [hs', herase]
        by_cases hij : ip = j
        · subst hij
          refine ⟨?_, ?_, ?_⟩
          · intro hnone
            rw [hnone] at hl0
            cases hl0
          · intro t ht hlt
            rw [hl0] at ht
            have he : t0 = t := Option.some.inj ht
            exact absurd hlt (by omega)
          · intro _
            exact ⟨t0, hl0, ht0⟩
        · have hcount : countF (⟨eraseA s.failedAttempts j, eraseA s.bannedIPs j⟩ : MonitorState) ip
              = countF s ip := by
            simp [countF, lookupA_eraseA, hij]
          refine ⟨fun _ => by rw [hcount], fun t _ _ => by rw [hcount], fun hlt => ?_⟩
          rw [hcount] at hlt
          exact absurd hlt (lt_irrefl _)
  | sweep now =>
      simp only [opNow]
      have hs' : stepState cfg s (.sweep now)
          = (⟨eraseAll (expiredKeys s.bannedIPs now) s.failedAttempts,
              eraseAll (expiredKeys s.bannedIPs now) s.bannedIPs⟩ : MonitorState) := by
        show (cleanupTick now s (fun _ => none)).1 = _
        unfold cleanupTick
        rw [cleanupLoop_fst]
      by_cases hE : ip ∈ expiredKeys s.bannedIPs now
      · obtain ⟨t', hmem', hlt'⟩ := (mem_expiredKeys _ _ _).mp hE
        have hl' : lookupA s.bannedIPs ip = some t' := lookupA_of_mem_nodup _ _ _ hnd hmem'
        refine ⟨?_, ?_, ?_⟩
        · intro hnone
          rw [hnone] at hl'
          cases hl'
        · intro t ht hlt
          rw [hl'] at ht
          have he : t' = t := Option.some.inj ht
          exact absurd hlt (by omega)
        · intro _
          exact ⟨t', hl', by omega⟩
      · have hcount : countF (stepState cfg s (.sweep now)) ip = countF s ip := by
          rw [hs']
          simp [countF, lookupA_eraseAll, hE]
        refine ⟨fun _ => by rw [hcount], fun t _ _ => by rw [hcount], fun hlt => ?_⟩
        rw [hcount] at hlt
        exact absurd hlt (lt_irrefl _)
  | fail now j =>
      simp only [opNow]
      have hs' : stepState cfg s (.fail now j)
          = (handleFailedLogin cfg now j s none none (fun _ => none) none none).1 := rfl
      by_cases hb : (isIPBanned now s j).1 = true
      · have heqs : stepState cfg s (.fail now j) = s := by
          rw [hs', handleFailedLogin_fst_of_banned_bool cfg now j s _ _ _ _ _ hb,
            isIPBanned_true_snd now s j hb]
        rw [heqs]
        exact ⟨fun _ => le_refl _, fun t _ _ => rfl, fun hlt => absurd hlt (lt_irrefl _)⟩
      · have hb' : (isIPBanned now s j).1 = false := by
          cases h : (isIPBanned now s j).1
          · rfl
          · exact absurd h hb
        have hcnt : countF (stepState cfg s (.fail now j)) ip
            = if ip = j then countF (isIPBanned now s j).2 j + 1
              else countF (isIPBanned now s j).2 ip := by
          have hfa := handleFailedLogin_failedAttempts cfg now j s
            none none (fun _ => none) none none hb'
          rw [hs']
          simp only [countF, hfa, lookupA_insertA]
          by_cases hij : ip = j <;> simp [hij]
        rcases isIPBanned_snd_cases now s j with hsame | ⟨herase, t0, hl0, ht0⟩
        · rw [hsame] at hcnt
          by_cases hij : ip = j
          · subst hij
            rw [if_pos rfl] at hcnt
            refine ⟨?_, ?_, ?_⟩
            · intro _
              rw [hcnt]
              omega
            · intro t ht hlt
              exact absurd (isIPBanned_fst_of_active now s ip t ht hlt)
                (by rw [hb']; exact Bool.false_ne_true)
            · intro hdec
              rw [hcnt] at hdec
              exact absurd hdec (by omega)
          · rw [if_neg hij] at hcnt
            refine ⟨fun _ => by rw [hcnt], fun t _ _ => by rw [hcnt], fun hdec => ?_⟩
            rw [hcnt] at hdec
            exact absurd hdec (lt_irrefl _)
        · rw [herase] at hcnt
          by_cases hij : ip = j
          · subst hij
            have h0 : countF (⟨eraseA s.failedAttempts ip, eraseA s.bannedIPs ip⟩ : MonitorState) ip
                = 0 := by
              simp [countF, lookupA_eraseA]
            rw [if_pos rfl, h0] at hcnt
            refine ⟨?_, ?_, ?_⟩
            · intro hnone
              rw [hnone] at hl0
              cases hl0
            · intro t ht hlt
              rw [hl0] at ht
              have he : t0 = t := Option.some.inj ht
              exact absurd hlt (by omega)
            · intro _
              exact ⟨t0, hl0, ht0⟩
          · have hsame2 : countF (⟨eraseA s.failedAttempts j, eraseA s.bannedIPs j⟩ : MonitorState) ip
                = countF s ip := by
              simp [countF, lookupA_eraseA, hij]
            rw [if_neg hij, hsame2] at hcnt
            refine ⟨fun _ => by rw [hcnt], fun t _ _ => by rw [hcnt], fun hdec => ?_⟩
            rw [hcnt] at hdec
            exact absurd hdec (lt_irrefl _)

/-- Witness for C6: a failure event at instant 10 against an address
actively banned until 100 leaves its count unchanged. -/
theorem count_monotone_per_step_w :
    (lookupA ([("1.2.3.4", 100)] : List (String × Nat)) "1.2.3.4" = none →
        countF ⟨[("1.2.3.4", 2)], [("1.2.3.4", 100)]⟩ "1.2.3.4"
          ≤ countF (stepState ⟨3, 24⟩ ⟨[("1.2.3.4", 2)], [("1.2.3.4", 100)]⟩
              (Op.fail 10 "1.2.3.4")) "1.2.3.4")
    ∧ (∀ t, lookupA ([("1.2.3.4", 100)] : List (String × Nat)) "1.2.3.4" = some t →
        opNow (Op.fail 10 "1.2.3.4") < t →
        countF (stepState ⟨3, 24⟩ ⟨[("1.2.3.4", 2)], [("1.2.3.4", 100)]⟩
            (Op.fail 10 "1.2.3.4")) "1.2.3.4"
          = countF ⟨[("1.2.3.4", 2)], [("1.2.3.4", 100)]⟩ "1.2.3.4")
    ∧ (countF (stepState ⟨3, 24⟩ ⟨[("1.2.3.4", 2)], [("1.2.3.4", 100)]⟩
          (Op.fail 10 "1.2.3.4")) "1.2.3.4"
        < countF ⟨[("1.2.3.4", 2)], [("1.2.3.4", 100)]⟩ "1.2.3.4" →
        ∃ t, lookupA ([("1.2.3.4", 100)] : List (String × Nat)) "1.2.3.4" = some t
          ∧ t ≤ opNow (Op.fail 10 "1.2.3.4")) :=
  count_monotone_per_step ⟨3, 24⟩ ⟨[("1.2.3.4", 2)], [("1.2.3.4", 100)]⟩
    (Op.fail 10 "1.2.3.4") "1.2.3.4" (by decide)

end SshFb
